import Mathlib

/-!
Shallow embedding of the pipeline core of `app3.py` (media-to-analysis
pipeline: extraction, transcription, analysis, comparison, orchestration).

Modelling conventions, fixed once for the whole file:
* The filesystem is the list of paths of the files that currently exist
  (`List String`); creating a file conses its path, `os.remove` erases it.
* External effects are passed in explicitly:
  - `run`   : outcome of `subprocess.run` on an argument list
              (exit code, or `FileNotFoundError` when the binary is absent);
  - `decode`: outcome of `AudioSegment.from_mp3` on the produced audio file
              (its length in milliseconds, or a decode failure);
  - `whisper`: outcome of the speech-to-text call, as a function of the
              language hint;
  - `chat`  : outcome of one `chat.completions.create` call, as a function of
              the full request (model, developer message, user prompt,
              temperature).
* Python exceptions are `Except String`; the carried string is the exception
  text (abstracted to the exception class name where the text is dynamic).
* `st.error` calls are collected in `reported : List String` fields.
* Temperatures (Python floats 0.5 / 0.7) are encoded exactly in tenths as
  naturals: 5 ↔ 0.5, 7 ↔ 0.7.
* Durations are kept in milliseconds (`len(audio)`); the final float division
  by 1000 is abstracted away (no claim mentions the numeric value).
-/

namespace App3

/-- Index of the last occurrence of `c` in `cs` (Python `str.rfind`,
restricted to a single character), `none` when absent. -/
def rfindIdx (cs : List Char) (c : Char) : Option Nat :=
  match cs with
  | [] => none
  | a :: rest =>
      match rfindIdx rest c with
      | some i => some (i + 1)
      | none => if a = c then some 0 else none

/-- Root part of `os.path.splitext(p)`: everything before the extension.
Mirrors CPython `genericpath._splitext`: the extension starts at the last
dot of the final path component, provided that component has a non-dot
character before that dot (so a dot inside a directory name does not count,
and neither do the leading dots of the basename). -/
def splitextRoot (p : String) : String :=
  let cs := p.data
  match rfindIdx cs '.' with
  | none => p
  | some dotIdx =>
      let fnameIdx : Nat :=
        match rfindIdx cs '/' with
        | some sepIdx => sepIdx + 1
        | none => 0
      if fnameIdx ≤ dotIdx then
        if ((cs.drop fnameIdx).take (dotIdx - fnameIdx)).any (fun ch => ch ≠ '.') then
          String.mk (cs.take dotIdx)
        else p
      else p

/-- Outcome of a `subprocess.run` invocation: an exit code, or
`FileNotFoundError` because the executable is missing. -/
inductive RunOutcome where
  | exit (code : Nat)
  | notFound
deriving DecidableEq

/-- Outcome of one `chat.completions.create` call: the content of the first
choice's message, or a raised exception with its text. -/
inductive ChatOutcome where
  | ok (content : String)
  | fail (err : String)
deriving DecidableEq

/-- One `chat.completions.create` request: model, developer-role message,
user-role message and temperature (in tenths: 5 ↔ 0.5, 7 ↔ 0.7). -/
structure ChatRequest where
  model : String
  developer : String
  user : String
  temperatureTenths : Nat
deriving DecidableEq

/-- `generate_case_number` works from the fields `datetime.now()` exposes
through `strftime`. -/
structure DateTime where
  year : Nat
  month : Nat
  day : Nat
  hour : Nat
  minute : Nat
  second : Nat

/-- Helper (not from the source): number of decimal digits of `n`, used to
characterise the shape of `Nat.repr`. -/
def numDigits (n : Nat) : Nat :=
  if h : n < 10 then 1 else numDigits (n / 10) + 1
decreasing_by
  exact Nat.div_lt_self (by omega) (by omega)

/-- Zero-pad to two digits, as `strftime` does for `%m %d %H %M %S`. -/
def pad2 (n : Nat) : String :=
  if n < 10 then "0" ++ Nat.repr n else Nat.repr n

/-- `now.strftime('%Y%m%d')` (for the years 1000–9999 that `datetime`
produces in practice, `%Y` is the plain decimal numeral). -/
def strftime_date (t : DateTime) : String :=
  Nat.repr t.year ++ pad2 t.month ++ pad2 t.day

/-- `now.strftime('%H%M%S')`. -/
def strftime_time (t : DateTime) : String :=
  pad2 t.hour ++ pad2 t.minute ++ pad2 t.second

/-- `generate_case_number` from `app3.py`: the prefix letter in the source is
the Cyrillic capital Em `М` (U+041C). -/
def generate_case_number (now : DateTime) : String :=
  "М-" ++ strftime_date now ++ "-" ++ strftime_time now

/-- `check_ffmpeg`: probe `ffmpeg -version`; `check=True` raises
`CalledProcessError` on a non-zero exit and `FileNotFoundError` when the
binary is missing, both caught and turned into `False`. -/
def check_ffmpeg (run : List String → RunOutcome) : Bool :=
  match run ["ffmpeg", "-version"] with
  | .exit 0 => true
  | .exit (_ + 1) => false
  | .notFound => false

/-- `os.remove(p)` guarded by `os.path.exists(p)`, as in the `finally`
blocks of `extract_audio` and `transcribe_audio`. -/
def removeIfExists (fs : List String) (p : String) : List String :=
  if p ∈ fs then fs.erase p else fs

/-- Result of one pipeline stage: the returned value or raised exception,
the filesystem after the stage, and the `st.error` messages it reported. -/
structure StageResult (α : Type) where
  result : Except String α
  fs : List String
  reported : List String

/-- Name of the temporary video file: `tempfile.NamedTemporaryFile` with
`suffix='.mp4'` appends `.mp4` to the system-chosen name `tmpName`. -/
def extract_video_path (tmpName : String) : String :=
  tmpName ++ ".mp4"

/-- `audio_path = os.path.splitext(video_path)[0] + '.mp3'`. -/
def extract_audio_path (tmpName : String) : String :=
  splitextRoot (extract_video_path tmpName) ++ ".mp3"

/-- Argument list of the conversion subprocess in `extract_audio`. -/
def ffmpeg_args (video_path audio_path : String) : List String :=
  ["ffmpeg", "-i", video_path, "-q:a", "0", "-map", "a", audio_path]

/-- `extract_audio`: write the upload to the temporary `.mp4` file, invoke
ffmpeg, decode the produced `.mp3` only to measure its length; the `finally`
block removes the video file on every exit path.  A zero ffmpeg exit is
modelled as having written `audio_path`; a non-zero exit or missing binary
raises (as `CalledProcessError` / `FileNotFoundError`, text abstracted to the
class name) without producing the audio file.  The upload's bytes and
declared extension are not consulted anywhere, matching the source. -/
def extract_audio (fs : List String) (tmpName : String)
    (run : List String → RunOutcome) (decode : Except String Nat) :
    StageResult (String × Nat) :=
  let video_path := extract_video_path tmpName
  let fs1 := video_path :: fs
  let audio_path := extract_audio_path tmpName
  match run (ffmpeg_args video_path audio_path) with
  | .exit 0 =>
      let fs2 := audio_path :: fs1
      match decode with
      | .ok lenMs =>
          { result := .ok (audio_path, lenMs)
            fs := removeIfExists fs2 video_path
            reported := [] }
      | .error e =>
          { result := .error e
            fs := removeIfExists fs2 video_path
            reported := ["Ошибка при извлечении аудио: " ++ e] }
  | .exit (_ + 1) =>
      { result := .error "CalledProcessError"
        fs := removeIfExists fs1 video_path
        reported := ["Ошибка при извлечении аудио: CalledProcessError"] }
  | .notFound =>
      { result := .error "FileNotFoundError"
        fs := removeIfExists fs1 video_path
        reported := ["Ошибка при извлечении аудио: FileNotFoundError"] }

/-- `transcribe_audio`: open the audio file (raises `FileNotFoundError` when
it does not exist), submit it with the language hint; the `finally` block
removes the audio file on every exit path. -/
def transcribe_audio (fs : List String) (whisper : String → Except String String)
    (audio_file language : String) : StageResult String :=
  let r : Except String String :=
    if audio_file ∈ fs then whisper language else .error "FileNotFoundError"
  match r with
  | .ok t =>
      { result := .ok t, fs := removeIfExists fs audio_file, reported := [] }
  | .error e =>
      { result := .error e
        fs := removeIfExists fs audio_file
        reported := ["Ошибка при транскрибации: " ++ e] }

/-- Request built by `summarize_text`. -/
def summarize_request (text language : String) : ChatRequest :=
  { model := "gpt-4o-mini"
    developer := "Вы действуете как опытный следователь, оценивающий достоверность показаний."
    user := "В рамках следственных действий установите достоверность показаний. Суммируйте следующий текст на языке " ++ language ++ ":\n\n" ++ text ++ "\n\nДайте краткий вывод основных моментов, с учетом роли следствия в установлении достоверности показаний."
    temperatureTenths := 5 }

/-- `summarize_text`: one chat call; on success the trimmed content, on any
exception an `st.error` report and the empty string (never re-raised). -/
def summarize_text (chat : ChatRequest → ChatOutcome) (text language : String) :
    String × List String :=
  match chat (summarize_request text language) with
  | .ok content => (content.trim, [])
  | .fail e => ("", ["Ошибка при суммаризации: " ++ e])

/-- Request built by `check_sequence`. -/
def check_sequence_request (text : String) : ChatRequest :=
  { model := "gpt-4o-mini"
    developer := "Вы следователь, оценивающий последовательность изложения показаний."
    user := "Проанализируйте следующий текст показаний с точки зрения следственных действий. Проверьте логическую последовательность изложения и выделите несоответствия или пропущенные шаги, важные для установления достоверности показаний:\n\n" ++ text
    temperatureTenths := 5 }

/-- `check_sequence`: same soft-failure shape as `summarize_text`. -/
def check_sequence (chat : ChatRequest → ChatOutcome) (text : String) :
    String × List String :=
  match chat (check_sequence_request text) with
  | .ok content => (content.trim, [])
  | .fail e => ("", ["Ошибка при проверке последовательности: " ++ e])

/-- Request built by `extract_key_facts`. -/
def extract_key_facts_request (text : String) : ChatRequest :=
  { model := "gpt-4o-mini"
    developer := "Вы следователь, выделяющий существенные факты для установления истины."
    user := "Извлеките из следующего текста ключевые факты, имеющие значение в следственном деле, которые помогут установить достоверность показаний:\n\n" ++ text
    temperatureTenths := 5 }

/-- `extract_key_facts`: same soft-failure shape as `summarize_text`. -/
def extract_key_facts (chat : ChatRequest → ChatOutcome) (text : String) :
    String × List String :=
  match chat (extract_key_facts_request text) with
  | .ok content => (content.trim, [])
  | .fail e => ("", ["Ошибка при извлечении ключевых фактов: " ++ e])

/-- Request built by `check_contradictions`. -/
def check_contradictions_request (text1 text2 : String) : ChatRequest :=
  { model := "gpt-4o-mini"
    developer := "Вы следователь, сопоставляющий показания для выявления противоречий."
    user := "Сравните следующие два показания и определите противоречия или расхождения между ними, которые могут повлиять на достоверность показаний:\n\nПоказания лица №1:\n" ++ text1 ++ "\n\nПоказания лица №2:\n" ++ text2
    temperatureTenths := 5 }

/-- `check_contradictions`: same soft-failure shape as `summarize_text`. -/
def check_contradictions (chat : ChatRequest → ChatOutcome) (text1 text2 : String) :
    String × List String :=
  match chat (check_contradictions_request text1 text2) with
  | .ok content => (content.trim, [])
  | .fail e => ("", ["Ошибка при проверке противоречий: " ++ e])

/-- Request built by `formulate_questions` (the one call at temperature 0.7). -/
def formulate_questions_request (contradictions : String) : ChatRequest :=
  { model := "gpt-4o-mini"
    developer := "Вы следователь, формирующий вопросы для уточнения показаний."
    user := "На основе следующих противоречий, выявленных в показаниях, сформулируйте вопросы для уточнения и проверки достоверности сведений:\n\n" ++ contradictions
    temperatureTenths := 7 }

/-- `formulate_questions`: same soft-failure shape as `summarize_text`. -/
def formulate_questions (chat : ChatRequest → ChatOutcome) (contradictions : String) :
    String × List String :=
  match chat (formulate_questions_request contradictions) with
  | .ok content => (content.trim, [])
  | .fail e => ("", ["Ошибка при формировании вопросов: " ++ e])

/-- The per-party fields of `main`: `transcriptionN`, `summaryN`,
`sequence_checkN`, `key_factsN`, all initialised to the empty string. -/
structure PartyResult where
  transcription : String
  summary : String
  sequence_check : String
  key_facts : String
deriving DecidableEq

/-- The initial (and failed-branch) per-party state: four empty strings. -/
def emptyParty : PartyResult :=
  { transcription := "", summary := "", sequence_check := "", key_facts := "" }

/-- Environment of one party's branch: the system-chosen temporary file name
and the outcomes of the branch's decode and speech-to-text calls. -/
structure BranchEnv where
  tmpName : String
  decode : Except String Nat
  whisper : String → Except String String

/-- Result of processing one branch: the party fields, the filesystem after
the branch, and the `st.error` messages reported along the way. -/
structure BranchOut where
  res : PartyResult
  fs : List String
  reported : List String

/-- One `if uploaded_file_N:` body of `main`: extract, transcribe, then the
three soft-failing analyses; the surrounding `try/except` catches an
exception from the first two stages, reports it with the party label and
leaves every field of the party at its initial empty value. -/
def process_branch (run : List String → RunOutcome) (chat : ChatRequest → ChatOutcome)
    (fs : List String) (env : BranchEnv) (language label : String) : BranchOut :=
  let ex := extract_audio fs env.tmpName run env.decode
  match ex.result with
  | .error e =>
      { res := emptyParty
        fs := ex.fs
        reported := ex.reported ++ ["Ошибка при обработке материала лица №" ++ label ++ ": " ++ e] }
  | .ok (audio_path, _durMs) =>
      let tr := transcribe_audio ex.fs env.whisper audio_path language
      match tr.result with
      | .error e =>
          { res := emptyParty
            fs := tr.fs
            reported := ex.reported ++ tr.reported ++
              ["Ошибка при обработке материала лица №" ++ label ++ ": " ++ e] }
      | .ok t =>
          let s := summarize_text chat t language
          let sq := check_sequence chat t
          let kf := extract_key_facts chat t
          { res := { transcription := t, summary := s.1
                     sequence_check := sq.1, key_facts := kf.1 }
            fs := tr.fs
            reported := ex.reported ++ tr.reported ++ s.2 ++ sq.2 ++ kf.2 }

/-- Derived characterisation (proved equal to `process_branch` below): the
party fields a branch produces, as a function of the branch's external
outcomes only — the filesystem plays no role in the value. -/
def branch_outcome (run : List String → RunOutcome) (chat : ChatRequest → ChatOutcome)
    (env : BranchEnv) (language : String) : PartyResult :=
  match run (ffmpeg_args (extract_video_path env.tmpName) (extract_audio_path env.tmpName)) with
  | .exit 0 =>
      match env.decode with
      | .error _ => emptyParty
      | .ok _ =>
          match env.whisper language with
          | .error _ => emptyParty
          | .ok t =>
              { transcription := t
                summary := (summarize_text chat t language).1
                sequence_check := (check_sequence chat t).1
                key_facts := (extract_key_facts chat t).1 }
  | .exit (_ + 1) => emptyParty
  | .notFound => emptyParty

/-- A branch with an upload runs `process_branch`; without one the party
fields keep their initial empty values (the source only shows a warning). -/
def branch_or_skip (run : List String → RunOutcome) (chat : ChatRequest → ChatOutcome)
    (fs : List String) (upload : Bool) (env : BranchEnv) (language label : String) :
    BranchOut :=
  if upload then process_branch run chat fs env language label
  else { res := emptyParty, fs := fs, reported := [] }

/-- `{ contradictions, questions }` of the comparison block. -/
structure ComparisonResult where
  contradictions : String
  questions : String
deriving DecidableEq

/-- Everything the button-press block of `main` produces. -/
structure SessionResult where
  party1 : PartyResult
  party2 : PartyResult
  comparison : Option ComparisonResult
  fs : List String
  reported : List String

/-- The `if st.button(...)` block of `main`: process party 1, then party 2
on the resulting filesystem, then — exactly when both transcription strings
are non-empty (Python truthiness of `transcription1 and transcription2`) —
run `check_contradictions` followed unconditionally by
`formulate_questions` on whatever text the former returned. -/
def run_pipeline (run : List String → RunOutcome) (chat : ChatRequest → ChatOutcome)
    (fs : List String) (u1 u2 : Bool) (env1 env2 : BranchEnv) (language : String) :
    SessionResult :=
  let b1 := branch_or_skip run chat fs u1 env1 language "1"
  let b2 := branch_or_skip run chat b1.fs u2 env2 language "2"
  if b1.res.transcription ≠ "" ∧ b2.res.transcription ≠ "" then
    let cc := check_contradictions chat b1.res.transcription b2.res.transcription
    let fq := formulate_questions chat cc.1
    { party1 := b1.res, party2 := b2.res
      comparison := some { contradictions := cc.1, questions := fq.1 }
      fs := b2.fs
      reported := b1.reported ++ b2.reported ++ cc.2 ++ fq.2 }
  else
    { party1 := b1.res, party2 := b2.res
      comparison := none
      fs := b2.fs
      reported := b1.reported ++ b2.reported }

/-- `main` up to the button block: `check_ffmpeg` failing calls `st.stop()`
before anything else runs; a failed OpenAI initialisation returns early;
otherwise the processing block runs.  `none` means no session was
processed. -/
def main (run : List String → RunOutcome) (clientOk : Bool)
    (chat : ChatRequest → ChatOutcome) (fs : List String)
    (u1 u2 : Bool) (env1 env2 : BranchEnv) (language : String) :
    Option SessionResult :=
  if check_ffmpeg run then
    if clientOk then some (run_pipeline run chat fs u1 u2 env1 env2 language)
    else none
  else none

/-! ### Helper lemmas about `rfindIdx` and `splitextRoot` -/

theorem rfindIdx_eq_none {cs : List Char} {c : Char} (h : c ∉ cs) :
    rfindIdx cs c = none := by
  induction cs with
  | nil => rfl
  | cons a rest ih =>
      simp only [List.mem_cons, not_or] at h
      simp [rfindIdx, ih h.2, Ne.symm h.1]

theorem rfindIdx_append (xs ys : List Char) (c : Char) :
    rfindIdx (xs ++ ys) c =
      match rfindIdx ys c with
      | some i => some (xs.length + i)
      | none => rfindIdx xs c := by
  induction xs with
  | nil =>
      cases hy : rfindIdx ys c <;> simp [hy, rfindIdx]
  | cons a xs ih =>
      cases hy : rfindIdx ys c <;> cases hx : rfindIdx xs c <;>
        simp [rfindIdx, hy, hx, ih] <;> omega

theorem rfindIdx_lt {cs : List Char} {c : Char} {i : Nat}
    (h : rfindIdx cs c = some i) : i < cs.length := by
  induction cs generalizing i with
  | nil => simp [rfindIdx] at h
  | cons a rest ih =>
      simp only [rfindIdx] at h
      cases hr : rfindIdx rest c with
      | some j =>
          rw [hr] at h
          cases h
          simp only [List.length_cons]
          exact Nat.succ_lt_succ (ih hr)
      | none =>
          rw [hr] at h
          by_cases ha : a = c
          · rw [if_pos ha] at h
            cases h
            simp only [List.length_cons]
            omega
          · rw [if_neg ha] at h
            cases h

theorem rfindIdx_getElem {cs : List Char} {c : Char} {i : Nat}
    (h : rfindIdx cs c = some i) : cs[i]? = some c := by
  induction cs generalizing i with
  | nil => simp [rfindIdx] at h
  | cons a rest ih =>
      simp only [rfindIdx] at h
      cases hr : rfindIdx rest c with
      | some j =>
          rw [hr] at h
          cases h
          simpa using ih hr
      | none =>
          rw [hr] at h
          by_cases ha : a = c
          · rw [if_pos ha] at h
            cases h
            simpa using ha
          · rw [if_neg ha] at h
            cases h

theorem rfindIdx_succ_lt_of_getLast {cs : List Char} {c : Char} {i : Nat}
    (hlast : cs.getLast? ≠ some c) (h : rfindIdx cs c = some i) :
    i + 1 < cs.length := by
  have hi := rfindIdx_lt h
  rcases Nat.lt_or_ge (i + 1) cs.length with h' | h'
  · exact h'
  · exfalso
    have hie : i = cs.length - 1 := by omega
    have := rfindIdx_getElem h
    rw [hie] at this
    rw [List.getLast?_eq_getElem? cs] at hlast
    exact hlast this

theorem splitextRoot_append_mp4 (base : String)
    (h1 : '.' ∉ base.data) (h2 : base.data ≠ [])
    (h3 : base.data.getLast? ≠ some '/') :
    splitextRoot (base ++ ".mp4") = base := by
  have hdata : (base ++ ".mp4").data = base.data ++ ['.', 'm', 'p', '4'] := by
    simp [String.data_append]
  have hdot : rfindIdx (base.data ++ ['.', 'm', 'p', '4']) '.' = some base.data.length := by
    rw [rfindIdx_append]
    rfl
  have hsep : rfindIdx (base.data ++ ['.', 'm', 'p', '4']) '/' =
      rfindIdx base.data '/' := by
    rw [rfindIdx_append]
    rfl
  have hmk : String.mk ((base.data ++ ['.', 'm', 'p', '4']).take base.data.length) = base := by
    rw [List.take_left]
  have hfname : ∀ k : Nat, k < base.data.length →
      (((base.data ++ ['.', 'm', 'p', '4']).drop k).take
        (base.data.length - k)).any (fun ch => ch ≠ '.') = true := by
    intro k hk
    rw [List.drop_append_of_le_length (Nat.le_of_lt hk)]
    have hdl : (base.data.drop k).length = base.data.length - k :=
      List.length_drop k base.data
    have hlen : base.data.length - k ≤ (base.data.drop k).length := by
      omega
    rw [List.take_append_of_le_length hlen]
    have htk : (base.data.drop k).take (base.data.length - k) = base.data.drop k := by
      apply List.take_of_length_le
      omega
    rw [htk, List.any_eq_true]
    have hne : base.data.drop k ≠ [] := by
      intro hnil
      rw [List.drop_eq_nil_iff] at hnil
      omega
    rcases List.exists_mem_of_ne_nil _ hne with ⟨x, hx⟩
    refine ⟨x, hx, ?_⟩
    have hxb : x ∈ base.data := List.mem_of_mem_drop hx
    simp only [ne_eq, decide_eq_true_eq]
    intro hxeq
    exact h1 (hxeq ▸ hxb)
  have hlenpos : 0 < base.data.length := List.length_pos.mpr h2
  simp only [splitextRoot, hdata, hdot, hsep]
  cases hsl : rfindIdx base.data '/' with
  | none =>
      simp only [Nat.zero_le, if_true]
      rw [if_pos (hfname 0 hlenpos)]
      exact hmk
  | some s =>
      have hs1 : s + 1 < base.data.length := rfindIdx_succ_lt_of_getLast h3 hsl
      rw [if_pos (Nat.le_of_lt hs1)]
      rw [if_pos (hfname (s + 1) hs1)]
      exact hmk

/-! ### Path and filesystem helper lemmas -/

theorem append_mp3_ne_append_mp4 (x y : String) : x ++ ".mp3" ≠ y ++ ".mp4" := by
  intro h
  have hd := congrArg String.data h
  rw [String.data_append, String.data_append] at hd
  have h1 := congrArg List.getLast? hd
  rw [List.getLast?_append, List.getLast?_append] at h1
  have e3 : ((".mp3" : String).data).getLast? = some '3' := rfl
  have e4 : ((".mp4" : String).data).getLast? = some '4' := rfl
  rw [e3, e4] at h1
  simp at h1

theorem audio_path_ne_video_path (tmpName : String) :
    extract_audio_path tmpName ≠ extract_video_path tmpName :=
  append_mp3_ne_append_mp4 _ tmpName

theorem removeIfExists_cons_self (fs : List String) (p : String) :
    removeIfExists (p :: fs) p = fs := by
  have hp : p ∈ p :: fs := List.mem_cons_self p fs
  simp [removeIfExists, hp]

theorem removeIfExists_cons_cons (fs : List String) (a v : String) (hav : a ≠ v) :
    removeIfExists (a :: v :: fs) v = a :: fs := by
  have hv : v ∈ a :: v :: fs := List.mem_cons_of_mem _ (List.mem_cons_self v fs)
  rw [removeIfExists, if_pos hv]
  rw [List.erase_cons_tail (by simpa using hav)]
  rw [List.erase_cons_head]

/-! ### Stage characterisation lemmas -/

theorem extract_audio_fs_exit0 (fs : List String) (tmpName : String)
    (run : List String → RunOutcome) (decode : Except String Nat)
    (h0 : run (ffmpeg_args (extract_video_path tmpName) (extract_audio_path tmpName)) =
      .exit 0) :
    (extract_audio fs tmpName run decode).fs = extract_audio_path tmpName :: fs := by
  cases decode <;>
    simp [extract_audio, h0,
      removeIfExists_cons_cons fs _ _ (audio_path_ne_video_path tmpName)]

theorem extract_audio_fs_fail (fs : List String) (tmpName : String)
    (run : List String → RunOutcome) (decode : Except String Nat)
    (h0 : run (ffmpeg_args (extract_video_path tmpName) (extract_audio_path tmpName)) ≠
      .exit 0) :
    (extract_audio fs tmpName run decode).fs = fs := by
  cases hr : run (ffmpeg_args (extract_video_path tmpName) (extract_audio_path tmpName)) with
  | exit code =>
      cases code with
      | zero => exact absurd hr h0
      | succ n => simp [extract_audio, hr, removeIfExists_cons_self]
  | notFound => simp [extract_audio, hr, removeIfExists_cons_self]

theorem transcribe_audio_fs (fs : List String) (whisper : String → Except String String)
    (audio_file language : String) :
    (transcribe_audio fs whisper audio_file language).fs = removeIfExists fs audio_file := by
  rw [transcribe_audio]
  split <;> rfl

/-! ### Branch characterisation lemmas -/

theorem process_branch_res (run : List String → RunOutcome) (chat : ChatRequest → ChatOutcome)
    (fs : List String) (env : BranchEnv) (language label : String) :
    (process_branch run chat fs env language label).res = branch_outcome run chat env language := by
  cases hr : run (ffmpeg_args (extract_video_path env.tmpName) (extract_audio_path env.tmpName)) with
  | exit code =>
      cases code with
      | zero =>
          cases hd : env.decode with
          | error e =>
              simp [process_branch, extract_audio, branch_outcome, hr, hd]
          | ok lenMs =>
              have hrw : removeIfExists
                  (extract_audio_path env.tmpName :: extract_video_path env.tmpName :: fs)
                  (extract_video_path env.tmpName) = extract_audio_path env.tmpName :: fs :=
                removeIfExists_cons_cons fs _ _ (audio_path_ne_video_path env.tmpName)
              cases hw : env.whisper language with
              | error e =>
                  simp [process_branch, branch_outcome, hr, hd, hw, transcribe_audio,
                    extract_audio, hrw]
              | ok t =>
                  simp [process_branch, branch_outcome, hr, hd, hw, transcribe_audio,
                    extract_audio, hrw]
      | succ n =>
          simp [process_branch, extract_audio, branch_outcome, hr]
  | notFound =>
      simp [process_branch, extract_audio, branch_outcome, hr]

theorem process_branch_fs_extract_fail (run : List String → RunOutcome)
    (chat : ChatRequest → ChatOutcome) (fs : List String) (env : BranchEnv)
    (language label : String)
    (h0 : run (ffmpeg_args (extract_video_path env.tmpName) (extract_audio_path env.tmpName)) ≠
      .exit 0) :
    (process_branch run chat fs env language label).fs = fs := by
  cases hr : run (ffmpeg_args (extract_video_path env.tmpName) (extract_audio_path env.tmpName)) with
  | exit code =>
      cases code with
      | zero => exact absurd hr h0
      | succ n => simp [process_branch, extract_audio, hr, removeIfExists_cons_self]
  | notFound => simp [process_branch, extract_audio, hr, removeIfExists_cons_self]

theorem process_branch_fs_decode_error (run : List String → RunOutcome)
    (chat : ChatRequest → ChatOutcome) (fs : List String) (env : BranchEnv)
    (language label : String) (e : String)
    (h0 : run (ffmpeg_args (extract_video_path env.tmpName) (extract_audio_path env.tmpName)) =
      .exit 0)
    (hd : env.decode = .error e) :
    (process_branch run chat fs env language label).fs = extract_audio_path env.tmpName :: fs := by
  have hrw : removeIfExists
      (extract_audio_path env.tmpName :: extract_video_path env.tmpName :: fs)
      (extract_video_path env.tmpName) = extract_audio_path env.tmpName :: fs :=
    removeIfExists_cons_cons fs _ _ (audio_path_ne_video_path env.tmpName)
  simp [process_branch, extract_audio, h0, hd, hrw]

theorem process_branch_fs_decode_ok (run : List String → RunOutcome)
    (chat : ChatRequest → ChatOutcome) (fs : List String) (env : BranchEnv)
    (language label : String) (lenMs : Nat)
    (h0 : run (ffmpeg_args (extract_video_path env.tmpName) (extract_audio_path env.tmpName)) =
      .exit 0)
    (hd : env.decode = .ok lenMs) :
    (process_branch run chat fs env language label).fs = fs := by
  have hrw : removeIfExists
      (extract_audio_path env.tmpName :: extract_video_path env.tmpName :: fs)
      (extract_video_path env.tmpName) = extract_audio_path env.tmpName :: fs :=
    removeIfExists_cons_cons fs _ _ (audio_path_ne_video_path env.tmpName)
  cases hw : env.whisper language with
  | error e =>
      simp [process_branch, extract_audio, transcribe_audio, h0, hd, hw, hrw,
        removeIfExists_cons_self]
  | ok t =>
      simp [process_branch, extract_audio, transcribe_audio, h0, hd, hw, hrw,
        removeIfExists_cons_self]

/-! ### Orchestrator projection lemmas -/

theorem branch_or_skip_res (run : List String → RunOutcome) (chat : ChatRequest → ChatOutcome)
    (fs : List String) (u : Bool) (env : BranchEnv) (language label : String) :
    (branch_or_skip run chat fs u env language label).res =
      (if u then branch_outcome run chat env language else emptyParty) := by
  cases u with
  | false => rfl
  | true =>
      simp [branch_or_skip, process_branch_res]

theorem run_pipeline_party1 (run : List String → RunOutcome) (chat : ChatRequest → ChatOutcome)
    (fs : List String) (u1 u2 : Bool) (env1 env2 : BranchEnv) (language : String) :
    (run_pipeline run chat fs u1 u2 env1 env2 language).party1 =
      (branch_or_skip run chat fs u1 env1 language "1").res := by
  rw [run_pipeline]
  split <;> rfl

theorem run_pipeline_party2 (run : List String → RunOutcome) (chat : ChatRequest → ChatOutcome)
    (fs : List String) (u1 u2 : Bool) (env1 env2 : BranchEnv) (language : String) :
    (run_pipeline run chat fs u1 u2 env1 env2 language).party2 =
      (branch_or_skip run chat (branch_or_skip run chat fs u1 env1 language "1").fs
        u2 env2 language "2").res := by
  rw [run_pipeline]
  split <;> rfl

theorem run_pipeline_comparison (run : List String → RunOutcome) (chat : ChatRequest → ChatOutcome)
    (fs : List String) (u1 u2 : Bool) (env1 env2 : BranchEnv) (language : String) :
    (run_pipeline run chat fs u1 u2 env1 env2 language).comparison =
      (if (branch_or_skip run chat fs u1 env1 language "1").res.transcription ≠ "" ∧
          (branch_or_skip run chat (branch_or_skip run chat fs u1 env1 language "1").fs
            u2 env2 language "2").res.transcription ≠ "" then
        some
          { contradictions :=
              (check_contradictions chat
                (branch_or_skip run chat fs u1 env1 language "1").res.transcription
                (branch_or_skip run chat (branch_or_skip run chat fs u1 env1 language "1").fs
                  u2 env2 language "2").res.transcription).1
            questions :=
              (formulate_questions chat
                (check_contradictions chat
                  (branch_or_skip run chat fs u1 env1 language "1").res.transcription
                  (branch_or_skip run chat (branch_or_skip run chat fs u1 env1 language "1").fs
                    u2 env2 language "2").res.transcription).1).1 }
      else none) := by
  rw [run_pipeline]
  split <;> rfl

/-! ### Decimal-numeral lemmas (shape of `Nat.repr`, for the case number) -/

theorem digitChar_isDigit : ∀ m, m < 10 → (Nat.digitChar m).isDigit = true := by
  decide

theorem numDigits_of_lt {n : Nat} (h : n < 10) : numDigits n = 1 := by
  unfold numDigits
  simp [h]

theorem numDigits_of_ge {n : Nat} (h : ¬n < 10) : numDigits n = numDigits (n / 10) + 1 := by
  conv_lhs => rw [numDigits]
  simp [h]

theorem toDigitsCore_spec :
    ∀ fuel n acc, n < fuel →
      (Nat.toDigitsCore 10 fuel n acc).length = numDigits n + acc.length ∧
      (∀ c ∈ Nat.toDigitsCore 10 fuel n acc, c ∈ acc ∨ c.isDigit = true) := by
  intro fuel
  induction fuel with
  | zero =>
      intro n acc h
      exact absurd h (Nat.not_lt_zero n)
  | succ fuel ih =>
      intro n acc h
      by_cases h10 : n / 10 = 0
      · have hn : n < 10 := by omega
        have hres : Nat.toDigitsCore 10 (fuel + 1) n acc = Nat.digitChar (n % 10) :: acc := by
          simp [Nat.toDigitsCore, h10]
        rw [hres]
        refine ⟨?_, ?_⟩
        · simp [numDigits_of_lt hn]
          omega
        · intro c hc
          rcases List.mem_cons.1 hc with hc | hc
          · right
            rw [hc]
            exact digitChar_isDigit _ (Nat.mod_lt n (by omega))
          · exact Or.inl hc
      · have hn : ¬n < 10 := by omega
        have hlt : n / 10 < fuel := by omega
        have hres : Nat.toDigitsCore 10 (fuel + 1) n acc =
            Nat.toDigitsCore 10 fuel (n / 10) (Nat.digitChar (n % 10) :: acc) := by
          simp [Nat.toDigitsCore, h10]
        rw [hres]
        obtain ⟨ihlen, ihmem⟩ := ih (n / 10) (Nat.digitChar (n % 10) :: acc) hlt
        refine ⟨?_, ?_⟩
        · rw [ihlen, numDigits_of_ge hn]
          simp
          omega
        · intro c hc
          rcases ihmem c hc with hc' | hc'
          · rcases List.mem_cons.1 hc' with hc'' | hc''
            · right
              rw [hc'']
              exact digitChar_isDigit _ (Nat.mod_lt n (by omega))
            · exact Or.inl hc''
          · exact Or.inr hc'

theorem repr_spec (n : Nat) :
    (Nat.repr n).data.length = numDigits n ∧
      ∀ c ∈ (Nat.repr n).data, c.isDigit = true := by
  have hdata : (Nat.repr n).data = Nat.toDigitsCore 10 (n + 1) n [] := rfl
  obtain ⟨hlen, hmem⟩ := toDigitsCore_spec (n + 1) n [] (Nat.lt_succ_self n)
  refine ⟨by rw [hdata, hlen]; simp, ?_⟩
  intro c hc
  rw [hdata] at hc
  rcases hmem c hc with hc' | hc'
  · exact absurd hc' (List.not_mem_nil c)
  · exact hc'

theorem numDigits_two {n : Nat} (h1 : 10 ≤ n) (h2 : n < 100) : numDigits n = 2 := by
  rw [numDigits_of_ge (by omega), numDigits_of_lt (by omega)]

theorem numDigits_four {n : Nat} (h1 : 1000 ≤ n) (h2 : n < 10000) : numDigits n = 4 := by
  rw [numDigits_of_ge (by omega), numDigits_of_ge (by omega),
    numDigits_of_ge (by omega), numDigits_of_lt (by omega)]

theorem pad2_spec {m : Nat} (h : m < 100) :
    (pad2 m).data.length = 2 ∧ ∀ c ∈ (pad2 m).data, c.isDigit = true := by
  by_cases h10 : m < 10
  · have hdata : (pad2 m).data = '0' :: (Nat.repr m).data := by
      simp [pad2, h10]
    obtain ⟨hlen, hmem⟩ := repr_spec m
    refine ⟨?_, ?_⟩
    · rw [hdata]
      simp [hlen, numDigits_of_lt h10]
    · intro c hc
      rw [hdata] at hc
      rcases List.mem_cons.1 hc with hc' | hc'
      · rw [hc']
        rfl
      · exact hmem c hc'
  · have hdata : (pad2 m).data = (Nat.repr m).data := by
      simp [pad2, h10]
    obtain ⟨hlen, hmem⟩ := repr_spec m
    refine ⟨?_, ?_⟩
    · rw [hdata, hlen]
      exact numDigits_two (by omega) h
    · intro c hc
      rw [hdata] at hc
      exact hmem c hc

/-! ### Claim theorems -/

theorem isSome_ite_some_none {α : Type} (c : Prop) [Decidable c] (x : α) :
    (if c then some x else none).isSome = true ↔ c := by
  by_cases h : c <;> simp [h]

/-- Claim C1: the comparison step runs if and only if both parties'
transcripts are present and non-empty; with no upload, or with a branch
failed at extraction (ffmpeg unavailable) or at transcription, that party's
transcript is the empty string and the `ComparisonResult` is therefore
absent. -/
theorem claim_C1_comparison_iff_both_transcripts :
    (∀ (run : List String → RunOutcome) (chat : ChatRequest → ChatOutcome)
        (fs : List String) (u1 u2 : Bool) (env1 env2 : BranchEnv) (language : String),
      ((run_pipeline run chat fs u1 u2 env1 env2 language).comparison.isSome = true ↔
        ((run_pipeline run chat fs u1 u2 env1 env2 language).party1.transcription ≠ "" ∧
          (run_pipeline run chat fs u1 u2 env1 env2 language).party2.transcription ≠ ""))) ∧
    (∀ run chat fs u2 env1 env2 language,
      (run_pipeline run chat fs false u2 env1 env2 language).party1.transcription = "") ∧
    (∀ run chat fs u1 env1 env2 language,
      (run_pipeline run chat fs u1 false env1 env2 language).party2.transcription = "") ∧
    (∀ chat fs u1 u2 env1 env2 language,
      (run_pipeline (fun _ => RunOutcome.notFound) chat fs u1 u2 env1 env2
        language).party1.transcription = "") ∧
    (∀ run chat fs u2 tn dec e env2 language,
      (run_pipeline run chat fs true u2 ⟨tn, dec, fun _ => Except.error e⟩ env2
        language).party1.transcription = "") := by
  refine ⟨?_, ?_, ?_, ?_, ?_⟩
  · intro run chat fs u1 u2 env1 env2 language
    rw [run_pipeline_comparison, run_pipeline_party1, run_pipeline_party2]
    exact isSome_ite_some_none _ _
  · intro run chat fs u2 env1 env2 language
    rw [run_pipeline_party1, branch_or_skip_res]
    rfl
  · intro run chat fs u1 env1 env2 language
    rw [run_pipeline_party2, branch_or_skip_res]
    rfl
  · intro chat fs u1 u2 env1 env2 language
    rw [run_pipeline_party1, branch_or_skip_res]
    cases u1 <;> simp [branch_outcome, emptyParty]
  · intro run chat fs u2 tn dec e env2 language
    rw [run_pipeline_party1, branch_or_skip_res]
    simp only [if_true]
    cases hr : run (ffmpeg_args (extract_video_path tn) (extract_audio_path tn)) with
    | exit code =>
        cases code with
        | zero => cases dec <;> simp [branch_outcome, hr, emptyParty]
        | succ n => simp [branch_outcome, hr, emptyParty]
    | notFound => simp [branch_outcome, hr, emptyParty]

/-- Claim C2 is violated by the code: when ffmpeg exits zero but the
produced `.mp3` cannot be decoded, `extract_audio` raises and its `finally`
block removes only the video file — the audio artifact stays on disk and no
later stage ever deletes it (the branch aborts), contradicting both the
resource-cleanup invariant and the app's own banner that files are deleted
automatically after processing. -/
theorem claim_C2_decode_failure_leaks_audio :
    (extract_audio [] "/tmp/tmpv" (fun _ => RunOutcome.exit 0)
        (.error "CouldntDecodeError")).result = .error "CouldntDecodeError" ∧
    "/tmp/tmpv.mp3" ∈ (extract_audio [] "/tmp/tmpv" (fun _ => RunOutcome.exit 0)
        (.error "CouldntDecodeError")).fs ∧
    (process_branch (fun _ => RunOutcome.exit 0) (fun _ => ChatOutcome.ok "") []
        ⟨"/tmp/tmpv", .error "CouldntDecodeError", fun _ => .ok ""⟩ "ru" "1").fs =
      ["/tmp/tmpv.mp3"] :=
  ⟨rfl, by decide, by decide⟩

/-- Claim C3: `extract_audio` removes the temporary source video file before
returning or raising, on the success path and on every failure path
(non-zero exit, missing binary, undecodable output). -/
theorem claim_C3_video_always_deleted (fs : List String) (tmpName : String)
    (run : List String → RunOutcome) (decode : Except String Nat)
    (h : extract_video_path tmpName ∉ fs) :
    extract_video_path tmpName ∉ (extract_audio fs tmpName run decode).fs := by
  cases hr : run (ffmpeg_args (extract_video_path tmpName) (extract_audio_path tmpName)) with
  | exit code =>
      cases code with
      | zero =>
          rw [extract_audio_fs_exit0 fs tmpName run decode hr]
          intro hmem
          rcases List.mem_cons.1 hmem with hmem' | hmem'
          · exact audio_path_ne_video_path tmpName hmem'.symm
          · exact h hmem'
      | succ n =>
          rw [extract_audio_fs_fail fs tmpName run decode (by simp [hr])]
          exact h
  | notFound =>
      rw [extract_audio_fs_fail fs tmpName run decode (by simp [hr])]
      exact h

theorem claim_C3_witness :
    (extract_video_path "/tmp/tmpa" ∉ ([] : List String)) ∧
    extract_video_path "/tmp/tmpa" ∉
      (extract_audio [] "/tmp/tmpa" (fun _ => RunOutcome.exit 0) (.ok 1500)).fs :=
  ⟨by decide, claim_C3_video_always_deleted [] "/tmp/tmpa" _ _ (by decide)⟩

/-- Claim C4: `transcribe_audio` deletes the audio artifact on every exit
path, and its effect on the filesystem is the same whatever the
speech-recognition call returns (the deletion sits in a `finally` block). -/
theorem claim_C4_audio_always_deleted (fs : List String)
    (whisper : String → Except String String) (audio_file language : String)
    (h : fs.Nodup) :
    audio_file ∉ (transcribe_audio fs whisper audio_file language).fs ∧
    (∀ whisper' : String → Except String String,
      (transcribe_audio fs whisper audio_file language).fs =
        (transcribe_audio fs whisper' audio_file language).fs) := by
  refine ⟨?_, ?_⟩
  · rw [transcribe_audio_fs]
    rw [removeIfExists]
    by_cases hm : audio_file ∈ fs
    · rw [if_pos hm]
      exact h.not_mem_erase
    · rw [if_neg hm]
      exact hm
  · intro whisper'
    rw [transcribe_audio_fs, transcribe_audio_fs]

theorem claim_C4_witness :
    (["/tmp/tmpa.mp3"] : List String).Nodup ∧
    "/tmp/tmpa.mp3" ∉
      (transcribe_audio ["/tmp/tmpa.mp3"] (fun _ => .ok "текст") "/tmp/tmpa.mp3" "ru").fs :=
  ⟨by decide,
    (claim_C4_audio_always_deleted ["/tmp/tmpa.mp3"] (fun _ => .ok "текст")
      "/tmp/tmpa.mp3" "ru" (by decide)).1⟩

/-- Claim C5: branch isolation — party 2's result is a function of party 2's
own upload and environment only (changing party 1's upload or outcomes never
changes it), and concretely a conversion failure on party 1 beside a fully
valid party 2 yields party 1 in its failed empty state with the reported
error, and a complete successful `PartyResult` for party 2. -/
theorem claim_C5_branch_isolation :
    (∀ (run : List String → RunOutcome) (chat : ChatRequest → ChatOutcome)
        (fs : List String) (u1 u1' u2 : Bool) (env1 env1' env2 : BranchEnv)
        (language : String),
      (run_pipeline run chat fs u1 u2 env1 env2 language).party2 =
        (run_pipeline run chat fs u1' u2 env1' env2 language).party2) ∧
    (∀ (run : List String → RunOutcome) (chat : ChatRequest → ChatOutcome)
        (fs : List String) (tn1 : String) (dec1 : Except String Nat)
        (wh1 : String → Except String String) (tn2 : String) (d : Nat) (t : String)
        (language : String),
      run (ffmpeg_args (extract_video_path tn1) (extract_audio_path tn1)) = .exit 1 →
      run (ffmpeg_args (extract_video_path tn2) (extract_audio_path tn2)) = .exit 0 →
      ((run_pipeline run chat fs true true ⟨tn1, dec1, wh1⟩
          ⟨tn2, .ok d, fun _ => .ok t⟩ language).party1 = emptyParty ∧
        (run_pipeline run chat fs true true ⟨tn1, dec1, wh1⟩
          ⟨tn2, .ok d, fun _ => .ok t⟩ language).party2 =
          { transcription := t
            summary := (summarize_text chat t language).1
            sequence_check := (check_sequence chat t).1
            key_facts := (extract_key_facts chat t).1 } ∧
        "Ошибка при обработке материала лица №1: CalledProcessError" ∈
          (run_pipeline run chat fs true true ⟨tn1, dec1, wh1⟩
            ⟨tn2, .ok d, fun _ => .ok t⟩ language).reported)) := by
  refine ⟨?_, ?_⟩
  · intro run chat fs u1 u1' u2 env1 env1' env2 language
    rw [run_pipeline_party2, run_pipeline_party2, branch_or_skip_res, branch_or_skip_res]
  · intro run chat fs tn1 dec1 wh1 tn2 d t language h1 h2
    refine ⟨?_, ?_, ?_⟩
    · rw [run_pipeline_party1, branch_or_skip_res]
      simp [branch_outcome, h1, emptyParty]
    · rw [run_pipeline_party2, branch_or_skip_res]
      simp [branch_outcome, h2]
    · have hb1 : (branch_or_skip run chat fs true ⟨tn1, dec1, wh1⟩ language "1").reported =
          ["Ошибка при извлечении аудио: CalledProcessError",
           "Ошибка при обработке материала лица №1: CalledProcessError"] := by
        simp [branch_or_skip, process_branch, extract_audio, h1]
      rw [run_pipeline]
      split <;>
        simp [hb1]

/-- Claim C10: `check_ffmpeg` returns `True` exactly when the probe
`ffmpeg -version` exits zero (a non-zero exit or a missing binary is caught
and yields `False`, never an exception), and a `False` answer aborts the
whole session before any branch is processed. -/
theorem claim_C10_ffmpeg_gate :
    (∀ run : List String → RunOutcome,
      (check_ffmpeg run = true ↔ run ["ffmpeg", "-version"] = .exit 0)) ∧
    (∀ (run : List String → RunOutcome) (clientOk : Bool)
        (chat : ChatRequest → ChatOutcome) (fs : List String) (u1 u2 : Bool)
        (env1 env2 : BranchEnv) (language : String),
      check_ffmpeg run = false →
      main run clientOk chat fs u1 u2 env1 env2 language = none) := by
  refine ⟨?_, ?_⟩
  · intro run
    cases hr : run ["ffmpeg", "-version"] with
    | exit code =>
        cases code with
        | zero => simp [check_ffmpeg, hr]
        | succ n => simp [check_ffmpeg, hr]
    | notFound => simp [check_ffmpeg, hr]
  · intro run clientOk chat fs u1 u2 env1 env2 language h
    simp [main, h]

theorem claim_C10_witness :
    check_ffmpeg (fun _ => RunOutcome.notFound) = false ∧
    main (fun _ => RunOutcome.notFound) true (fun _ => ChatOutcome.ok "") [] true true
      ⟨"/tmp/tmpa", .ok 1, fun _ => .ok "а"⟩ ⟨"/tmp/tmpb", .ok 1, fun _ => .ok "б"⟩
      "ru" = none :=
  ⟨rfl,
    claim_C10_ffmpeg_gate.2 (fun _ => RunOutcome.notFound) true (fun _ => ChatOutcome.ok "")
      [] true true ⟨"/tmp/tmpa", .ok 1, fun _ => .ok "а"⟩
      ⟨"/tmp/tmpb", .ok 1, fun _ => .ok "б"⟩ "ru" rfl⟩

/-- Claim C6: each of the five generation transforms catches any failure of
the chat call, returns the empty string as its text result and reports the
error to the caller (the functions are total: no exception propagates). -/
theorem claim_C6_soft_failure (chat : ChatRequest → ChatOutcome)
    (text text2 language e : String) :
    (chat (summarize_request text language) = .fail e →
      summarize_text chat text language = ("", ["Ошибка при суммаризации: " ++ e])) ∧
    (chat (check_sequence_request text) = .fail e →
      check_sequence chat text = ("", ["Ошибка при проверке последовательности: " ++ e])) ∧
    (chat (extract_key_facts_request text) = .fail e →
      extract_key_facts chat text = ("", ["Ошибка при извлечении ключевых фактов: " ++ e])) ∧
    (chat (check_contradictions_request text text2) = .fail e →
      check_contradictions chat text text2 =
        ("", ["Ошибка при проверке противоречий: " ++ e])) ∧
    (chat (formulate_questions_request text) = .fail e →
      formulate_questions chat text = ("", ["Ошибка при формировании вопросов: " ++ e])) := by
  refine ⟨?_, ?_, ?_, ?_, ?_⟩ <;> intro h <;>
    simp [summarize_text, check_sequence, extract_key_facts, check_contradictions,
      formulate_questions, h]

theorem claim_C6_witness :
    summarize_text (fun _ => ChatOutcome.fail "boom") "т" "ru" =
      ("", ["Ошибка при суммаризации: boom"]) ∧
    check_sequence (fun _ => ChatOutcome.fail "boom") "т" =
      ("", ["Ошибка при проверке последовательности: boom"]) ∧
    extract_key_facts (fun _ => ChatOutcome.fail "boom") "т" =
      ("", ["Ошибка при извлечении ключевых фактов: boom"]) ∧
    check_contradictions (fun _ => ChatOutcome.fail "boom") "т" "т2" =
      ("", ["Ошибка при проверке противоречий: boom"]) ∧
    formulate_questions (fun _ => ChatOutcome.fail "boom") "т" =
      ("", ["Ошибка при формировании вопросов: boom"]) := by
  have h := claim_C6_soft_failure (fun _ => ChatOutcome.fail "boom") "т" "т2" "ru" "boom"
  exact ⟨h.1 rfl, h.2.1 rfl, h.2.2.1 rfl, h.2.2.2.1 rfl, h.2.2.2.2 rfl⟩

theorem run_pipeline_comparison_of_transcripts (run : List String → RunOutcome)
    (chat : ChatRequest → ChatOutcome) (fs : List String) (u1 u2 : Bool)
    (env1 env2 : BranchEnv) (language : String)
    (h1 : (run_pipeline run chat fs u1 u2 env1 env2 language).party1.transcription ≠ "")
    (h2 : (run_pipeline run chat fs u1 u2 env1 env2 language).party2.transcription ≠ "") :
    (run_pipeline run chat fs u1 u2 env1 env2 language).comparison =
      some
        { contradictions :=
            (check_contradictions chat
              (run_pipeline run chat fs u1 u2 env1 env2 language).party1.transcription
              (run_pipeline run chat fs u1 u2 env1 env2 language).party2.transcription).1
          questions :=
            (formulate_questions chat
              (check_contradictions chat
                (run_pipeline run chat fs u1 u2 env1 env2 language).party1.transcription
                (run_pipeline run chat fs u1 u2 env1 env2
                  language).party2.transcription).1).1 } := by
  rw [run_pipeline_party1] at h1
  rw [run_pipeline_party2] at h2
  rw [run_pipeline_party1, run_pipeline_party2, run_pipeline_comparison]
  rw [if_pos ⟨h1, h2⟩]

/-- Claim C7: whenever both transcripts are non-empty the comparison block
runs `check_contradictions` and then always `formulate_questions` on its
text — even when the contradictions call failed and returned the empty
string — and `formulate_questions` on any (possibly empty) input is total:
it returns the trimmed response or the empty string plus a report, never
raising. -/
theorem claim_C7_questions_always_follow :
    (∀ (run : List String → RunOutcome) (chat : ChatRequest → ChatOutcome)
        (fs : List String) (u1 u2 : Bool) (env1 env2 : BranchEnv) (language : String),
      (run_pipeline run chat fs u1 u2 env1 env2 language).party1.transcription ≠ "" →
      (run_pipeline run chat fs u1 u2 env1 env2 language).party2.transcription ≠ "" →
      (run_pipeline run chat fs u1 u2 env1 env2 language).comparison =
        some
          { contradictions :=
              (check_contradictions chat
                (run_pipeline run chat fs u1 u2 env1 env2 language).party1.transcription
                (run_pipeline run chat fs u1 u2 env1 env2 language).party2.transcription).1
            questions :=
              (formulate_questions chat
                (check_contradictions chat
                  (run_pipeline run chat fs u1 u2 env1 env2 language).party1.transcription
                  (run_pipeline run chat fs u1 u2 env1 env2
                    language).party2.transcription).1).1 }) ∧
    (∀ (run : List String → RunOutcome) (chat : ChatRequest → ChatOutcome)
        (fs : List String) (u1 u2 : Bool) (env1 env2 : BranchEnv) (language e : String),
      (run_pipeline run chat fs u1 u2 env1 env2 language).party1.transcription ≠ "" →
      (run_pipeline run chat fs u1 u2 env1 env2 language).party2.transcription ≠ "" →
      chat (check_contradictions_request
        (run_pipeline run chat fs u1 u2 env1 env2 language).party1.transcription
        (run_pipeline run chat fs u1 u2 env1 env2 language).party2.transcription) = .fail e →
      (run_pipeline run chat fs u1 u2 env1 env2 language).comparison =
        some { contradictions := ""
               questions := (formulate_questions chat "").1 }) ∧
    (∀ (chat : ChatRequest → ChatOutcome) (contradictions : String),
      formulate_questions chat contradictions =
        match chat (formulate_questions_request contradictions) with
        | .ok content => (content.trim, [])
        | .fail err => ("", ["Ошибка при формировании вопросов: " ++ err])) := by
  refine ⟨run_pipeline_comparison_of_transcripts, ?_, ?_⟩
  · intro run chat fs u1 u2 env1 env2 language e h1 h2 hfail
    have hmain := run_pipeline_comparison_of_transcripts run chat fs u1 u2 env1 env2
      language h1 h2
    have hcc : check_contradictions chat
        (run_pipeline run chat fs u1 u2 env1 env2 language).party1.transcription
        (run_pipeline run chat fs u1 u2 env1 env2 language).party2.transcription =
        ("", ["Ошибка при проверке противоречий: " ++ e]) := by
      simp [check_contradictions, hfail]
    rw [hmain, hcc]
  · intro chat c
    cases h : chat (formulate_questions_request c) <;> simp [formulate_questions, h]

set_option maxRecDepth 4096 in
theorem claim_C7_witness :
    (run_pipeline (fun _ => RunOutcome.exit 0)
        (fun req => if req = check_contradictions_request "a" "b" then ChatOutcome.fail "x"
          else ChatOutcome.ok "y")
        [] true true ⟨"/tmp/tmpa", .ok 1, fun _ => .ok "a"⟩
        ⟨"/tmp/tmpb", .ok 1, fun _ => .ok "b"⟩ "ru").comparison =
      some { contradictions := ""
             questions :=
               (formulate_questions
                 (fun req => if req = check_contradictions_request "a" "b" then
                     ChatOutcome.fail "x"
                   else ChatOutcome.ok "y") "").1 } :=
  claim_C7_questions_always_follow.2.1 (fun _ => RunOutcome.exit 0)
    (fun req => if req = check_contradictions_request "a" "b" then ChatOutcome.fail "x"
      else ChatOutcome.ok "y")
    [] true true ⟨"/tmp/tmpa", .ok 1, fun _ => .ok "a"⟩
    ⟨"/tmp/tmpb", .ok 1, fun _ => .ok "b"⟩ "ru" "x"
    (by decide) (by decide) (by decide)

/-- Claim C8 as stated is false at any concrete instant: the case number's
prefix letter is the Cyrillic capital Em `М` (U+041C), not the Latin letter
`M` the claim asserts. -/
theorem claim_C8_counterexample :
    generate_case_number ⟨2024, 1, 2, 3, 4, 5⟩ = "М-20240102-030405" ∧
    (generate_case_number ⟨2024, 1, 2, 3, 4, 5⟩).data.take 2 ≠ ['M', '-'] ∧
    (generate_case_number ⟨2024, 1, 2, 3, 4, 5⟩).data.take 2 = ['М', '-'] :=
  ⟨rfl, by decide, by decide⟩

/-- Claim C8 (amended): for every generation instant, `generate_case_number`
produces a timestamp-derived identifier of the form М-YYYYMMDD-HHMMSS — the
CYRILLIC letter Em `М` followed by a hyphen, the 8-digit date, a hyphen and
the 6-digit time. -/
theorem claim_C8_amended (t : DateTime)
    (hy1 : 1000 ≤ t.year) (hy2 : t.year ≤ 9999) (hmo : t.month ≤ 12)
    (hd : t.day ≤ 31) (hh : t.hour ≤ 23) (hmi : t.minute ≤ 59) (hs : t.second ≤ 59) :
    ∃ d8 t6 : List Char,
      (generate_case_number t).data = 'М' :: '-' :: (d8 ++ '-' :: t6) ∧
      d8.length = 8 ∧ t6.length = 6 ∧
      (∀ c ∈ d8, c.isDigit = true) ∧ (∀ c ∈ t6, c.isDigit = true) := by
  have hM : ("М-" : String).data = ['М', '-'] := rfl
  have hHy : ("-" : String).data = ['-'] := rfl
  have hyr : (Nat.repr t.year).data.length = 4 := by
    rw [(repr_spec t.year).1]
    exact numDigits_four hy1 (by omega)
  have hmo' := pad2_spec (show t.month < 100 by omega)
  have hd' := pad2_spec (show t.day < 100 by omega)
  have hh' := pad2_spec (show t.hour < 100 by omega)
  have hmi' := pad2_spec (show t.minute < 100 by omega)
  have hs' := pad2_spec (show t.second < 100 by omega)
  refine ⟨(strftime_date t).data, (strftime_time t).data, ?_, ?_, ?_, ?_, ?_⟩
  · simp [generate_case_number, String.data_append, hM, hHy, List.append_assoc]
  · simp [strftime_date, String.data_append, hyr, hmo'.1, hd'.1]
  · simp [strftime_time, String.data_append, hh'.1, hmi'.1, hs'.1]
  · intro c hc
    simp only [strftime_date, String.data_append, List.mem_append] at hc
    rcases hc with (hc | hc) | hc
    · exact (repr_spec t.year).2 c hc
    · exact hmo'.2 c hc
    · exact hd'.2 c hc
  · intro c hc
    simp only [strftime_time, String.data_append, List.mem_append] at hc
    rcases hc with (hc | hc) | hc
    · exact hh'.2 c hc
    · exact hmi'.2 c hc
    · exact hs'.2 c hc

theorem claim_C8_witness :
    ∃ d8 t6 : List Char,
      (generate_case_number ⟨2024, 1, 2, 3, 4, 5⟩).data = 'М' :: '-' :: (d8 ++ '-' :: t6) ∧
      d8.length = 8 ∧ t6.length = 6 ∧
      (∀ c ∈ d8, c.isDigit = true) ∧ (∀ c ∈ t6, c.isDigit = true) :=
  claim_C8_amended ⟨2024, 1, 2, 3, 4, 5⟩ (by decide) (by decide) (by decide) (by decide)
    (by decide) (by decide) (by decide)

/-- Claim C9: the upload's bytes are written to a temporary file named with
the `.mp4` suffix regardless of the declared extension, the returned audio
artifact path is exactly that temporary path with `.mp4` replaced by `.mp3`,
and every upload — pure-audio ones included — goes through the external
conversion process (its failure fails the extraction for any upload). -/
theorem claim_C9_conversion_paths (tmpName : String)
    (h1 : '.' ∉ tmpName.data) (h2 : tmpName.data ≠ [])
    (h3 : tmpName.data.getLast? ≠ some '/') :
    extract_video_path tmpName = tmpName ++ ".mp4" ∧
    extract_audio_path tmpName = tmpName ++ ".mp3" ∧
    (∀ (fs : List String) (run : List String → RunOutcome) (lenMs : Nat),
      run (ffmpeg_args (extract_video_path tmpName) (extract_audio_path tmpName)) =
        .exit 0 →
      (extract_audio fs tmpName run (.ok lenMs)).result =
        .ok (tmpName ++ ".mp3", lenMs)) ∧
    (∀ (fs : List String) (decode : Except String Nat) (n : Nat),
      (extract_audio fs tmpName (fun _ => RunOutcome.exit (n + 1)) decode).result =
        .error "CalledProcessError") := by
  have hpath : extract_audio_path tmpName = tmpName ++ ".mp3" := by
    rw [extract_audio_path, extract_video_path, splitextRoot_append_mp4 tmpName h1 h2 h3]
  refine ⟨rfl, hpath, ?_, ?_⟩
  · intro fs run lenMs h0
    rw [hpath] at h0
    simp [extract_audio, h0, hpath]
  · intro fs decode n
    cases decode <;> simp [extract_audio]

theorem claim_C9_witness :
    ('.' ∉ ("/tmp/tmpa" : String).data) ∧
    extract_audio_path "/tmp/tmpa" = "/tmp/tmpa" ++ ".mp3" ∧
    (extract_audio [] "/tmp/tmpa" (fun _ => RunOutcome.exit 0) (.ok 1500)).result =
      .ok ("/tmp/tmpa" ++ ".mp3", 1500) :=
  ⟨by decide,
    (claim_C9_conversion_paths "/tmp/tmpa" (by decide) (by decide) (by decide)).2.1,
    (claim_C9_conversion_paths "/tmp/tmpa" (by decide) (by decide) (by decide)).2.2.1 []
      (fun _ => RunOutcome.exit 0) 1500 rfl⟩

theorem claim_C5_witness :
    (run_pipeline
        (fun args => if args = ffmpeg_args (extract_video_path "/tmp/tmpa")
            (extract_audio_path "/tmp/tmpa") then RunOutcome.exit 1
          else RunOutcome.exit 0)
        (fun _ => ChatOutcome.ok "S") [] true true
        ⟨"/tmp/tmpa", .ok 1, fun _ => .ok "показания"⟩
        ⟨"/tmp/tmpb", .ok 2, fun _ => .ok "текст"⟩ "ru").party1 = emptyParty ∧
    (run_pipeline
        (fun args => if args = ffmpeg_args (extract_video_path "/tmp/tmpa")
            (extract_audio_path "/tmp/tmpa") then RunOutcome.exit 1
          else RunOutcome.exit 0)
        (fun _ => ChatOutcome.ok "S") [] true true
        ⟨"/tmp/tmpa", .ok 1, fun _ => .ok "показания"⟩
        ⟨"/tmp/tmpb", .ok 2, fun _ => .ok "текст"⟩ "ru").party2 =
      { transcription := "текст"
        summary := (summarize_text (fun _ => ChatOutcome.ok "S") "текст" "ru").1
        sequence_check := (check_sequence (fun _ => ChatOutcome.ok "S") "текст").1
        key_facts := (extract_key_facts (fun _ => ChatOutcome.ok "S") "текст").1 } ∧
    "Ошибка при обработке материала лица №1: CalledProcessError" ∈
      (run_pipeline
        (fun args => if args = ffmpeg_args (extract_video_path "/tmp/tmpa")
            (extract_audio_path "/tmp/tmpa") then RunOutcome.exit 1
          else RunOutcome.exit 0)
        (fun _ => ChatOutcome.ok "S") [] true true
        ⟨"/tmp/tmpa", .ok 1, fun _ => .ok "показания"⟩
        ⟨"/tmp/tmpb", .ok 2, fun _ => .ok "текст"⟩ "ru").reported :=
  claim_C5_branch_isolation.2
    (fun args => if args = ffmpeg_args (extract_video_path "/tmp/tmpa")
        (extract_audio_path "/tmp/tmpa") then RunOutcome.exit 1
      else RunOutcome.exit 0)
    (fun _ => ChatOutcome.ok "S") [] "/tmp/tmpa" (.ok 1) (fun _ => .ok "показания")
    "/tmp/tmpb" 2 "текст" "ru" (by decide) (by decide)

end App3
